import Mathlib

/-! Formal model of the PodMeter metrics collector (src/main.go), embedded
shallowly: Go float64 values are modelled as exact rationals, Go slices as
Lean lists, and a request's header set as a lookup function returning the
empty string for absent headers, mirroring http.Header.Get. -/

namespace PodMeter

/-- A request's header set, modelled after Go's r.Header.Get: the lookup
returns the header value, or the empty string when the header is absent. -/
abbrev Headers := String → String

/-- A header map with no headers set. -/
def emptyHeaders : Headers := fun _ => ""

/-- The comma-counting loop shared by both branches of countProxyHops:
count starts at 1 and is incremented once per comma character. -/
def commaLoopCount (s : String) : ℕ :=
  s.data.foldl (fun count c => if c = ',' then count + 1 else count) 1

/-- countProxyHops from src/main.go: traditional proxy hops derived from the
X-Forwarded-For and Via headers; each present non-empty header contributes
its comma-loop count, and the contributions sum. -/
def countProxyHops (r : Headers) : ℕ :=
  (if r "X-Forwarded-For" ≠ "" then commaLoopCount (r "X-Forwarded-For") else 0) +
  (if r "Via" ≠ "" then commaLoopCount (r "Via") else 0)

/-- countServiceMeshHops from src/main.go: one hop per present non-empty
marker header, checked in sequence. -/
def countServiceMeshHops (r : Headers) : ℕ :=
  let hops : ℕ := 0
  let hops := if r "X-Request-Id" ≠ "" then hops + 1 else hops
  let hops := if r "X-Envoy-External-Address" ≠ "" then hops + 1 else hops
  let hops := if r "X-Envoy-Decorator-Operation" ≠ "" then hops + 1 else hops
  let hops := if r "X-B3-TraceId" ≠ "" then hops + 1 else hops
  let hops := if r "X-B3-SpanId" ≠ "" then hops + 1 else hops
  hops

/-- countTotalHops from src/main.go. -/
def countTotalHops (r : Headers) : ℕ :=
  countProxyHops r + countServiceMeshHops r

/-- The proxyDetected flag computed by statsHandler: totalHops > 0. -/
def proxyDetected (r : Headers) : Bool :=
  decide (0 < countTotalHops r)

/-- The five service-mesh marker headers consulted by countServiceMeshHops. -/
def meshMarkerHeaders : List String :=
  ["X-Request-Id", "X-Envoy-External-Address", "X-Envoy-Decorator-Operation",
   "X-B3-TraceId", "X-B3-SpanId"]

/-- The mutable server state of src/main.go: the two lock-guarded parallel
slices and the three atomic counters. -/
structure ServerState where
  latencies : List ℚ
  proxyHops : List ℕ
  requests : ℕ
  errors : ℕ
  requestsViaProxy : ℕ
deriving Repr, DecidableEq

/-- The body of handler after hop classification (src/main.go lines 99-111):
increment the request counters, append the observation to both slices, and
drop the oldest entry of each when the latencies slice exceeds 1000. -/
def record (s : ServerState) (lat : ℚ) (hops : ℕ) : ServerState :=
  let requests' := s.requests + 1
  let requestsViaProxy' :=
    if 0 < hops then s.requestsViaProxy + 1 else s.requestsViaProxy
  let latencies' := s.latencies ++ [lat]
  let proxyHops' := s.proxyHops ++ [hops]
  if 1000 < latencies'.length then
    { latencies := latencies'.drop 1, proxyHops := proxyHops'.drop 1,
      requests := requests', errors := s.errors,
      requestsViaProxy := requestsViaProxy' }
  else
    { latencies := latencies', proxyHops := proxyHops',
      requests := requests', errors := s.errors,
      requestsViaProxy := requestsViaProxy' }

/-- handler from src/main.go: classify hops from the request headers, then
record the observation. -/
def handler (s : ServerState) (lat : ℚ) (r : Headers) : ServerState :=
  record s lat (countTotalHops r)

/-- The state set up by main: empty slices, zero counters. -/
def initState : ServerState := ⟨[], [], 0, 0, 0⟩

/-- Run a sequence of record operations (observation-level view). -/
def runObs : ServerState → List (ℚ × ℕ) → ServerState
  | s, [] => s
  | s, ob :: rest => runObs (record s ob.1 ob.2) rest

/-- Run a sequence of handler calls, each given its measured latency and its
request's headers. -/
def runRequests : ServerState → List (ℚ × Headers) → ServerState
  | s, [] => s
  | s, pr :: rest => runRequests (handler s pr.1 pr.2) rest

/-- Go's math.Round: the nearest integer, rounding halves away from zero. -/
def mathRound (y : ℚ) : ℚ :=
  if 0 ≤ y then ((⌊y + 1/2⌋ : ℤ) : ℚ) else ((⌈y - 1/2⌉ : ℤ) : ℚ)

/-- round from src/main.go: math.Round(val*100) / 100. -/
def round (val : ℚ) : ℚ :=
  mathRound (val * 100) / 100

/-- Modelled from the spec: rounding half away from zero on value*100, then
dividing by 100, written with an explicit sign split on the magnitude. -/
def halfAwayFromZeroSpec (val : ℚ) : ℚ :=
  (if val * 100 < 0 then -((⌊-(val * 100) + 1/2⌋ : ℤ) : ℚ)
   else ((⌊val * 100 + 1/2⌋ : ℤ) : ℚ)) / 100

/-- percentile from src/main.go: sort a copy of data ascending and index it at
ceil(p*len) - 1. An out-of-range index makes the Go code panic; that is
modelled by returning none. -/
def percentile (data : List ℚ) (p : ℚ) : Option ℚ :=
  let copyData := List.insertionSort (· ≤ ·) data
  let idx : ℤ := ⌈p * (copyData.length : ℚ)⌉ - 1
  if idx < 0 then none else copyData[idx.toNat]?

/-- The fields of the stats response computed by statsCompute: request
counters, rates, latency aggregates and the per-request hop classification.
Host facts (memory, disk, kernel) are modelled separately. -/
structure CoreStats where
  requests : ℕ
  errors : ℕ
  requestsPerSecond : ℚ
  successRate : ℚ
  avgLatency : ℚ
  p50Latency : ℚ
  p95Latency : ℚ
  p99Latency : ℚ
  p999Latency : ℚ
  minLatency : ℚ
  maxLatency : ℚ
  currentHopCount : ℕ
  proxyHopCount : ℕ
  serviceMeshHops : ℕ
  totalHopCount : ℕ
  avgProxyHops : ℚ
  proxyDetected : Bool
  requestsViaProxy : ℕ
deriving Repr, DecidableEq

/-- The core of statsHandler from src/main.go, as a pure function of the
snapshot copies, the counter loads, the uptime, and the incoming request's
headers. Latency fields in the empty-window branch are the Go zero value 0.
In the nonempty branch the percentile calls are in bounds (proved below), so
the getD default is never taken. -/
def statsCompute (latenciesCopy : List ℚ) (proxyHopsCopy : List ℕ)
    (totalRequests totalErrors totalViaProxy : ℕ) (uptime : ℚ)
    (r : Headers) : CoreStats :=
  let pHops := countProxyHops r
  let meshHops := countServiceMeshHops r
  let totalHops := pHops + meshHops
  let currentHops := totalHops
  let detected : Bool := decide (0 < totalHops)
  let avgHops : ℚ :=
    if 0 < proxyHopsCopy.length then
      round (((proxyHopsCopy.foldl (fun acc h => acc + h) 0 : ℕ) : ℚ) /
        (proxyHopsCopy.length : ℚ))
    else 0
  if latenciesCopy.length = 0 then
    { requests := totalRequests
      errors := totalErrors
      requestsPerSecond := round ((totalRequests : ℚ) / uptime)
      successRate :=
        if 0 < totalRequests then
          round (((totalRequests : ℚ) - (totalErrors : ℚ)) /
            (totalRequests : ℚ) * 100)
        else 100
      avgLatency := 0
      p50Latency := 0
      p95Latency := 0
      p99Latency := 0
      p999Latency := 0
      minLatency := 0
      maxLatency := 0
      currentHopCount := currentHops
      proxyHopCount := pHops
      serviceMeshHops := meshHops
      totalHopCount := totalHops
      avgProxyHops := avgHops
      proxyDetected := detected
      requestsViaProxy := totalViaProxy }
  else
    let sum := latenciesCopy.foldl (fun acc l => acc + l) 0
    let minLat :=
      latenciesCopy.foldl (fun m l => if l < m then l else m) (latenciesCopy.headD 0)
    let maxLat :=
      latenciesCopy.foldl (fun m l => if m < l then l else m) (latenciesCopy.headD 0)
    let p50 := (percentile latenciesCopy 0.50).getD 0
    let p95 := (percentile latenciesCopy 0.95).getD 0
    let p99 := (percentile latenciesCopy 0.99).getD 0
    let p999 := (percentile latenciesCopy 0.999).getD 0
    let successRate : ℚ :=
      if 0 < totalRequests then
        ((totalRequests : ℚ) - (totalErrors : ℚ)) / (totalRequests : ℚ) * 100
      else 100
    { requests := totalRequests
      errors := totalErrors
      requestsPerSecond := round ((totalRequests : ℚ) / uptime)
      successRate := round successRate
      avgLatency := round (sum / (latenciesCopy.length : ℚ))
      p50Latency := round p50
      p95Latency := round p95
      p99Latency := round p99
      p999Latency := round p999
      minLatency := round minLat
      maxLatency := round maxLat
      currentHopCount := currentHops
      proxyHopCount := pHops
      serviceMeshHops := meshHops
      totalHopCount := totalHops
      avgProxyHops := avgHops
      proxyDetected := detected
      requestsViaProxy := totalViaProxy }

/-- The empty-window branch of statsHandler as a standalone definition; its
body makes no reference to percentile. -/
def emptyWindowStats (proxyHopsCopy : List ℕ)
    (totalRequests totalErrors totalViaProxy : ℕ) (uptime : ℚ)
    (r : Headers) : CoreStats :=
  let pHops := countProxyHops r
  let meshHops := countServiceMeshHops r
  let totalHops := pHops + meshHops
  let avgHops : ℚ :=
    if 0 < proxyHopsCopy.length then
      round (((proxyHopsCopy.foldl (fun acc h => acc + h) 0 : ℕ) : ℚ) /
        (proxyHopsCopy.length : ℚ))
    else 0
  { requests := totalRequests
    errors := totalErrors
    requestsPerSecond := round ((totalRequests : ℚ) / uptime)
    successRate :=
      if 0 < totalRequests then
        round (((totalRequests : ℚ) - (totalErrors : ℚ)) /
          (totalRequests : ℚ) * 100)
      else 100
    avgLatency := 0
    p50Latency := 0
    p95Latency := 0
    p99Latency := 0
    p999Latency := 0
    minLatency := 0
    maxLatency := 0
    currentHopCount := totalHops
    proxyHopCount := pHops
    serviceMeshHops := meshHops
    totalHopCount := totalHops
    avgProxyHops := avgHops
    proxyDetected := decide (0 < totalHops)
    requestsViaProxy := totalViaProxy }

/-- An operation against the shared state: an inbound request handled by
handler, or a stats request (which reads but never mutates the store). -/
inductive Op where
  | request (lat : ℚ) (r : Headers)
  | stats (uptime : ℚ) (r : Headers)

/-- The state transition of a single operation. -/
def applyOp (s : ServerState) : Op → ServerState
  | Op.request lat r => handler s lat r
  | Op.stats _ _ => s

/-- Run a sequence of operations. -/
def runOps : ServerState → List Op → ServerState
  | s, [] => s
  | s, op :: rest => runOps (applyOp s op) rest

/-- The snapshot taken by statsHandler under the read lock: independent copies
of the two slices. -/
def snapshot (s : ServerState) : List ℚ × List ℕ :=
  (s.latencies, s.proxyHops)

/-- The snapshots taken by the stats requests of an operation sequence. -/
def snapshots : ServerState → List Op → List (List ℚ × List ℕ)
  | _, [] => []
  | s, Op.request lat r :: rest => snapshots (handler s lat r) rest
  | s, Op.stats _ _ :: rest => snapshot s :: snapshots s rest

/-- The stats responses produced by the stats requests of an operation
sequence, each computed from the snapshot and counter values at that point. -/
def statsOutputs : ServerState → List Op → List CoreStats
  | _, [] => []
  | s, Op.request lat r :: rest => statsOutputs (handler s lat r) rest
  | s, Op.stats uptime r :: rest =>
      statsCompute s.latencies s.proxyHops s.requests s.errors
        s.requestsViaProxy uptime r :: statsOutputs s rest

/-- The observations (latency, total hops) recorded by an operation sequence,
in arrival order. -/
def obsOf (ops : List Op) : List (ℚ × ℕ) :=
  ops.filterMap fun op =>
    match op with
    | Op.request lat r => some (lat, countTotalHops r)
    | Op.stats _ _ => none

/-- The sidecar-probe cache cell of src/main.go. -/
structure IstioCache where
  istioPresentCached : Bool
  istioLastChecked : ℚ
deriving Repr, DecidableEq

/-- istioSidecarPresent from src/main.go, with the ambient clock reading and
the outcome of probeEnvoyAdmin passed in explicitly; the third component
counts the probes performed by the call. Timestamps are in seconds. -/
def istioSidecarPresent (c : IstioCache) (now : ℚ) (probeResult : Bool) :
    Bool × IstioCache × ℕ :=
  let recent := now - c.istioLastChecked < 30
  let cached := c.istioPresentCached
  if recent then (cached, c, 0)
  else (probeResult, { istioPresentCached := probeResult, istioLastChecked := now }, 1)

/-- getTotalMemoryMB from src/main.go, with the parsed MemTotal kB value
passed explicitly; none models a missing file or a parse failure. -/
def getTotalMemoryMB (memTotalKB : Option ℚ) : ℚ :=
  match memTotalKB with
  | some kb => round (kb / 1024)
  | none => 0

/-- getAvailableMemoryMB from src/main.go, analogous to getTotalMemoryMB. -/
def getAvailableMemoryMB (memAvailKB : Option ℚ) : ℚ :=
  match memAvailKB with
  | some kb => round (kb / 1024)
  | none => 0

/-- getDiskStats from src/main.go, with the Statfs outcome passed explicitly:
ok is false when the syscall fails, and the byte totals otherwise. -/
def getDiskStats (ok : Bool) (totalBytes availBytes : ℕ) : ℚ × ℚ × ℚ :=
  if ok then
    let totalGB := round ((totalBytes : ℚ) / 1024 / 1024 / 1024)
    let availableGB := round ((availBytes : ℚ) / 1024 / 1024 / 1024)
    let usagePercent :=
      if 0 < totalGB then
        round (((totalBytes : ℚ) - (availBytes : ℚ)) / (totalBytes : ℚ) * 100)
      else 0
    (totalGB, availableGB, usagePercent)
  else (0, 0, 0)

/-- The memory and GC float fields of the stats response, from the
runtime.MemStats readings. -/
def memStatsFields (alloc sys totalAlloc pauseNs : ℕ) : ℚ × ℚ × ℚ × ℚ :=
  (round ((alloc : ℚ) / 1024 / 1024),
   round ((sys : ℚ) / 1024 / 1024),
   round ((totalAlloc : ℚ) / 1024 / 1024),
   round ((pauseNs : ℚ) / 1000000))

/-- The example header map of the spec: only X-Forwarded-For set, three IPs. -/
def xffHeaders : Headers := fun k =>
  if k = "X-Forwarded-For" then "1.1.1.1,2.2.2.2,3.3.3.3" else ""

/-- The example header map of the spec: X-Forwarded-For plus Via. -/
def xffViaHeaders : Headers := fun k =>
  if k = "X-Forwarded-For" then "1.1.1.1,2.2.2.2,3.3.3.3"
  else if k = "Via" then "proxyA" else ""

/-- The example header map of the spec: only the two mesh markers set. -/
def b3Headers : Headers := fun k =>
  if k = "X-B3-TraceId" then "463ac35c9f6413ad48485a3953bb6124"
  else if k = "X-Envoy-Decorator-Operation" then "ingress" else ""

section WindowLemmas

set_option maxRecDepth 4000

/-- Appending one element to the most-recent-1000 suffix and evicting the
head lands on the most-recent-1000 suffix of the extended list. -/
lemma drop_append_evict {α : Type} (X : List α) (a : α) (h : 1000 ≤ X.length) :
    (X.drop (X.length - 1000) ++ [a]).drop 1
      = (X ++ [a]).drop (X.length + 1 - 1000) := by
  have h1 : (1 : ℕ) ≤ (X.drop (X.length - 1000)).length := by
    simp only [List.length_drop]; omega
  rw [List.drop_append_of_le_length h1, List.drop_drop]
  have h2 : X.length + 1 - 1000 ≤ X.length := by omega
  rw [List.drop_append_of_le_length h2]
  have h3 : X.length - 1000 + 1 = X.length + 1 - 1000 := by omega
  rw [h3]

/-- The record equation in the eviction case. -/
lemma record_eq_evict (s : ServerState) (lat : ℚ) (hops : ℕ)
    (h : 1000 ≤ s.latencies.length) :
    record s lat hops
      = ⟨(s.latencies ++ [lat]).drop 1, (s.proxyHops ++ [hops]).drop 1,
         s.requests + 1, s.errors,
         if 0 < hops then s.requestsViaProxy + 1 else s.requestsViaProxy⟩ := by
  unfold record
  rw [if_pos (by
    simp only [List.length_append, List.length_cons, List.length_nil]
    omega)]

/-- The record equation below capacity. -/
lemma record_eq_keep (s : ServerState) (lat : ℚ) (hops : ℕ)
    (h : s.latencies.length < 1000) :
    record s lat hops
      = ⟨s.latencies ++ [lat], s.proxyHops ++ [hops],
         s.requests + 1, s.errors,
         if 0 < hops then s.requestsViaProxy + 1 else s.requestsViaProxy⟩ := by
  unfold record
  rw [if_neg (by
    simp only [List.length_append, List.length_cons, List.length_nil]
    omega)]

/-- One record step maps canonical window states to canonical window states. -/
lemma record_drop (L : List ℚ) (H : List ℕ) (rq er vp : ℕ) (lat : ℚ) (hops : ℕ)
    (hLH : H.length = L.length) :
    record ⟨L.drop (L.length - 1000), H.drop (L.length - 1000), rq, er, vp⟩ lat hops
      = ⟨(L ++ [lat]).drop (L.length + 1 - 1000),
         (H ++ [hops]).drop (L.length + 1 - 1000),
         rq + 1, er, if 0 < hops then vp + 1 else vp⟩ := by
  by_cases hc : 1000 ≤ L.length
  · rw [record_eq_evict _ _ _ (by simp only [List.length_drop]; omega)]
    simp only [ServerState.mk.injEq]
    refine ⟨drop_append_evict L lat hc, ?_, trivial, trivial, trivial⟩
    have hH : H.drop (L.length - 1000) = H.drop (H.length - 1000) := by rw [hLH]
    rw [hH, drop_append_evict H hops (by omega), hLH]
  · rw [record_eq_keep _ _ _ (by simp only [List.length_drop]; omega)]
    have h0 : L.length - 1000 = 0 := by omega
    have h1 : L.length + 1 - 1000 = 0 := by omega
    simp [h0, h1]

/-- Running record operations from a canonical window state yields the
most-recent-1000 suffix of the full arrival sequence, on both slices. -/
lemma runObs_core (obs : List (ℚ × ℕ)) :
    ∀ (L : List ℚ) (H : List ℕ) (rq er vp : ℕ), H.length = L.length →
    (runObs ⟨L.drop (L.length - 1000), H.drop (L.length - 1000), rq, er, vp⟩
        obs).latencies
      = (L ++ obs.map (fun ob => ob.1)).drop (L.length + obs.length - 1000) ∧
    (runObs ⟨L.drop (L.length - 1000), H.drop (L.length - 1000), rq, er, vp⟩
        obs).proxyHops
      = (H ++ obs.map (fun ob => ob.2)).drop (L.length + obs.length - 1000) := by
  induction obs with
  | nil =>
    intro L H rq er vp hLH
    constructor
    · simp [runObs]
    · simp [runObs, hLH]
  | cons ob rest ih =>
    intro L H rq er vp hLH
    rw [runObs, record_drop L H rq er vp ob.1 ob.2 hLH]
    have hlen : (H ++ [ob.2]).length = (L ++ [ob.1]).length := by simp [hLH]
    have h := ih (L ++ [ob.1]) (H ++ [ob.2]) (rq + 1) er
      (if 0 < ob.2 then vp + 1 else vp) hlen
    simp only [List.length_append, List.length_cons, List.length_nil,
      List.map_cons, List.append_assoc, List.cons_append, List.nil_append] at h ⊢
    have harith : L.length + 0 + 1 + rest.length - 1000
        = L.length + (rest.length + 1) - 1000 := by omega
    rw [harith] at h
    exact h

/-- The store contents after any sequence of record operations from the
initial state: the most recent 1000 observations, componentwise. -/
lemma runObs_init_spec (obs : List (ℚ × ℕ)) :
    (runObs initState obs).latencies
        = (obs.map (fun ob => ob.1)).drop (obs.length - 1000) ∧
    (runObs initState obs).proxyHops
        = (obs.map (fun ob => ob.2)).drop (obs.length - 1000) := by
  have h := runObs_core obs [] [] 0 0 0 rfl
  simpa [initState] using h

/-- A handler call is a record call on the classified hop count. -/
lemma runRequests_eq_runObs (reqs : List (ℚ × Headers)) :
    ∀ s, runRequests s reqs
        = runObs s (reqs.map fun pr => (pr.1, countTotalHops pr.2)) := by
  induction reqs with
  | nil => intro s; rfl
  | cons pr rest ih =>
    intro s
    rw [runRequests, List.map_cons, runObs, ← ih]
    rfl

/-- Stats operations do not mutate the store, so a mixed run equals the run
of its record operations alone. -/
lemma runOps_eq_runObs (ops : List Op) :
    ∀ s, runOps s ops = runObs s (obsOf ops) := by
  induction ops with
  | nil => intro s; rfl
  | cons op rest ih =>
    intro s
    cases op with
    | request lat r =>
      have hobs : obsOf (Op.request lat r :: rest)
          = (lat, countTotalHops r) :: obsOf rest := rfl
      rw [runOps, hobs, runObs, ih]
      rfl
    | stats u r =>
      have hobs : obsOf (Op.stats u r :: rest) = obsOf rest := rfl
      rw [runOps, hobs, ih]
      rfl

end WindowLemmas

section CounterLemmas

lemma record_requests_eq (s : ServerState) (lat : ℚ) (hops : ℕ) :
    (record s lat hops).requests = s.requests + 1 := by
  by_cases hc : 1000 ≤ s.latencies.length
  · rw [record_eq_evict s lat hops hc]
  · rw [record_eq_keep s lat hops (by omega)]

lemma record_errors_eq (s : ServerState) (lat : ℚ) (hops : ℕ) :
    (record s lat hops).errors = s.errors := by
  by_cases hc : 1000 ≤ s.latencies.length
  · rw [record_eq_evict s lat hops hc]
  · rw [record_eq_keep s lat hops (by omega)]

lemma record_via_eq (s : ServerState) (lat : ℚ) (hops : ℕ) :
    (record s lat hops).requestsViaProxy
      = if 0 < hops then s.requestsViaProxy + 1 else s.requestsViaProxy := by
  by_cases hc : 1000 ≤ s.latencies.length
  · rw [record_eq_evict s lat hops hc]
  · rw [record_eq_keep s lat hops (by omega)]

/-- The append-and-maybe-evict step keeps the two slices the same length. -/
lemma record_len_pair (s : ServerState) (lat : ℚ) (hops : ℕ)
    (h : s.latencies.length = s.proxyHops.length) :
    (record s lat hops).latencies.length
      = (record s lat hops).proxyHops.length := by
  by_cases hc : 1000 ≤ s.latencies.length
  · rw [record_eq_evict s lat hops hc]
    simp [List.length_drop, h]
  · rw [record_eq_keep s lat hops (by omega)]
    simp [h]

lemma applyOp_errors_eq (s : ServerState) (op : Op) :
    (applyOp s op).errors = s.errors := by
  cases op with
  | request lat r => exact record_errors_eq s lat (countTotalHops r)
  | stats u r => rfl

lemma applyOp_requests_mono (s : ServerState) (op : Op) :
    s.requests ≤ (applyOp s op).requests := by
  cases op with
  | request lat r =>
    rw [show applyOp s (Op.request lat r) = record s lat (countTotalHops r) from rfl,
      record_requests_eq]
    omega
  | stats u r => exact le_refl _

lemma applyOp_via_mono (s : ServerState) (op : Op) :
    s.requestsViaProxy ≤ (applyOp s op).requestsViaProxy := by
  cases op with
  | request lat r =>
    rw [show applyOp s (Op.request lat r) = record s lat (countTotalHops r) from rfl,
      record_via_eq]
    split <;> omega
  | stats u r => exact le_refl _

lemma applyOp_via_le (s : ServerState) (op : Op)
    (h : s.requestsViaProxy ≤ s.requests) :
    (applyOp s op).requestsViaProxy ≤ (applyOp s op).requests := by
  cases op with
  | request lat r =>
    rw [show applyOp s (Op.request lat r) = record s lat (countTotalHops r) from rfl,
      record_via_eq, record_requests_eq]
    split <;> omega
  | stats u r => exact h

lemma runOps_errors_eq (ops : List Op) :
    ∀ s : ServerState, (runOps s ops).errors = s.errors := by
  induction ops with
  | nil => intro s; rfl
  | cons op rest ih =>
    intro s
    rw [runOps, ih, applyOp_errors_eq]

lemma runOps_via_le (ops : List Op) :
    ∀ s : ServerState, s.requestsViaProxy ≤ s.requests →
      (runOps s ops).requestsViaProxy ≤ (runOps s ops).requests := by
  induction ops with
  | nil => intro s h; exact h
  | cons op rest ih =>
    intro s h
    rw [runOps]
    exact ih _ (applyOp_via_le s op h)

lemma runOps_len_pair (ops : List Op) :
    ∀ s : ServerState, s.latencies.length = s.proxyHops.length →
      (runOps s ops).latencies.length = (runOps s ops).proxyHops.length := by
  induction ops with
  | nil => intro s h; exact h
  | cons op rest ih =>
    intro s h
    rw [runOps]
    cases op with
    | request lat r => exact ih _ (record_len_pair s lat (countTotalHops r) h)
    | stats u r => exact ih _ h

/-- Every snapshot observed along a run has its two copies of equal length,
provided the run starts from a state where the slices agree. -/
lemma snapshots_len_forall (ops : List Op) :
    ∀ s : ServerState, s.latencies.length = s.proxyHops.length →
      (snapshots s ops).Forall fun pr => pr.1.length = pr.2.length := by
  induction ops with
  | nil => intro s h; simp [snapshots]
  | cons op rest ih =>
    intro s h
    cases op with
    | request lat r =>
      rw [snapshots]
      exact ih _ (record_len_pair s lat (countTotalHops r) h)
    | stats u r =>
      rw [snapshots]
      exact (List.forall_cons _ _ _).mpr ⟨h, ih _ h⟩

end CounterLemmas

section RoundLemmas

/-- math.Round agrees with the sign-split round-half-away-from-zero form. -/
lemma mathRound_eq_halfAway (y : ℚ) :
    mathRound y
      = if y < 0 then -((⌊-y + 1/2⌋ : ℤ) : ℚ) else ((⌊y + 1/2⌋ : ℤ) : ℚ) := by
  unfold mathRound
  by_cases h : 0 ≤ y
  · rw [if_pos h, if_neg (not_lt.mpr h)]
  · rw [if_neg h, if_pos (lt_of_not_ge h)]
    have hexp : (-y + 1/2 : ℚ) = -(y - 1/2) := by ring
    rw [hexp, Int.floor_neg]
    push_cast
    ring

/-- round is exactly the spec's rounding: half away from zero on value*100,
then divided by 100. -/
lemma round_eq_spec (x : ℚ) : round x = halfAwayFromZeroSpec x := by
  unfold round halfAwayFromZeroSpec
  rw [mathRound_eq_halfAway]

lemma round_zero_eq : round 0 = 0 := by
  have h : (⌊(0 : ℚ) * 100 + 1/2⌋ : ℤ) = 0 := by
    rw [Int.floor_eq_iff] <;> norm_num
  unfold round mathRound
  rw [if_pos (by norm_num), h]
  norm_num

lemma round_hundred_eq : round 100 = 100 := by
  have h : (⌊(100 : ℚ) * 100 + 1/2⌋ : ℤ) = 10000 := by
    rw [Int.floor_eq_iff] <;> norm_num
  unfold round mathRound
  rw [if_pos (by norm_num), h]
  norm_num

end RoundLemmas

section PercentileLemmas

/-- For a nonempty data set and p in (0, 1], the nearest-rank index is in
bounds and percentile returns the sorted element there. -/
lemma percentile_spec (data : List ℚ) (p : ℚ)
    (hne : data ≠ []) (hp0 : 0 < p) (hp1 : p ≤ 1) :
    0 ≤ ⌈p * (data.length : ℚ)⌉ - 1 ∧
    ⌈p * (data.length : ℚ)⌉ - 1 < (data.length : ℤ) ∧
    percentile data p
      = (List.insertionSort (· ≤ ·) data)[(⌈p * (data.length : ℚ)⌉ - 1).toNat]? ∧
    (percentile data p).isSome = true := by
  have hn : 0 < data.length := List.length_pos.mpr hne
  have hceil1 : 1 ≤ ⌈p * (data.length : ℚ)⌉ := by
    have hpos : (0 : ℚ) < p * (data.length : ℚ) :=
      mul_pos hp0 (by exact_mod_cast hn)
    exact Int.ceil_pos.mpr hpos
  have hceiln : ⌈p * (data.length : ℚ)⌉ ≤ (data.length : ℤ) := by
    rw [Int.ceil_le]
    have hstep : p * (data.length : ℚ) ≤ 1 * (data.length : ℚ) :=
      mul_le_mul_of_nonneg_right hp1 (by positivity)
    rw [one_mul] at hstep
    exact_mod_cast hstep
  have heq : percentile data p
      = (List.insertionSort (· ≤ ·) data)[(⌈p * (data.length : ℚ)⌉ - 1).toNat]? := by
    unfold percentile
    simp only [List.length_insertionSort]
    rw [if_neg (by omega)]
  refine ⟨by omega, by omega, heq, ?_⟩
  have hlt : (⌈p * (data.length : ℚ)⌉ - 1).toNat
      < (List.insertionSort (· ≤ ·) data).length := by
    rw [List.length_insertionSort]
    omega
  rw [heq, List.getElem?_eq_getElem hlt]
  rfl

/-- On a one-element data set every percentile with p in (0, 1] returns the
single element. -/
lemma percentile_singleton (a : ℚ) (p : ℚ) (hp0 : 0 < p) (hp1 : p ≤ 1) :
    percentile [a] p = some a := by
  have hceil : ⌈p * (([a] : List ℚ).length : ℚ)⌉ = 1 := by
    have h1 : ⌈p * (([a] : List ℚ).length : ℚ)⌉ ≤ 1 := by
      rw [Int.ceil_le]
      simp only [List.length_cons, List.length_nil, Nat.zero_add, Nat.cast_one,
        mul_one]
      exact_mod_cast hp1
    have h2 : 1 ≤ ⌈p * (([a] : List ℚ).length : ℚ)⌉ := by
      apply Int.ceil_pos.mpr
      simp only [List.length_cons, List.length_nil, Nat.zero_add, Nat.cast_one,
        mul_one]
      exact hp0
    omega
  unfold percentile
  simp only [List.length_insertionSort, hceil]
  norm_num [List.insertionSort, List.orderedInsert]

end PercentileLemmas

section StatsLemmas

/-- The empty-window branch of statsCompute is the percentile-free
emptyWindowStats. -/
lemma statsCompute_empty_eq (proxyHopsCopy : List ℕ)
    (totalRequests totalErrors totalViaProxy : ℕ) (uptime : ℚ) (r : Headers) :
    statsCompute [] proxyHopsCopy totalRequests totalErrors totalViaProxy uptime r
      = emptyWindowStats proxyHopsCopy totalRequests totalErrors totalViaProxy
          uptime r := rfl

/-- With a zero errors counter, both branches of statsCompute report a
success rate of exactly 100 and echo errors = 0. -/
lemma statsCompute_err0 (latC : List ℚ) (hopC : List ℕ) (req vp : ℕ)
    (uptime : ℚ) (r : Headers) :
    (statsCompute latC hopC req 0 vp uptime r).successRate = 100 ∧
    (statsCompute latC hopC req 0 vp uptime r).errors = 0 := by
  have hsr : ∀ h : 0 < req,
      ((req : ℚ) - ((0 : ℕ) : ℚ)) / (req : ℚ) * 100 = 100 := by
    intro h
    have hne : (req : ℚ) ≠ 0 := Nat.cast_ne_zero.mpr (by omega)
    rw [Nat.cast_zero, sub_zero, div_self hne, one_mul]
  unfold statsCompute
  by_cases hl : latC.length = 0
  · rw [if_pos hl]
    refine ⟨?_, rfl⟩
    by_cases hr : 0 < req
    · rw [if_pos hr]
      rw [hsr hr, round_hundred_eq]
    · rw [if_neg hr]
  · rw [if_neg hl]
    refine ⟨?_, rfl⟩
    by_cases hr : 0 < req
    · rw [if_pos hr, hsr hr]
      simp only [round_hundred_eq]
    · rw [if_neg hr]
      simp only [round_hundred_eq]

/-- The empty-window equation of statsCompute, with the record spelled out. -/
lemma statsCompute_eq_empty (latC : List ℚ) (hopC : List ℕ) (req err vp : ℕ)
    (uptime : ℚ) (r : Headers) (hl : latC.length = 0) :
    statsCompute latC hopC req err vp uptime r
      = { requests := req
          errors := err
          requestsPerSecond := round ((req : ℚ) / uptime)
          successRate :=
            if 0 < req then
              round (((req : ℚ) - (err : ℚ)) / (req : ℚ) * 100)
            else 100
          avgLatency := 0
          p50Latency := 0
          p95Latency := 0
          p99Latency := 0
          p999Latency := 0
          minLatency := 0
          maxLatency := 0
          currentHopCount := countProxyHops r + countServiceMeshHops r
          proxyHopCount := countProxyHops r
          serviceMeshHops := countServiceMeshHops r
          totalHopCount := countProxyHops r + countServiceMeshHops r
          avgProxyHops :=
            if 0 < hopC.length then
              round (((hopC.foldl (fun acc h => acc + h) 0 : ℕ) : ℚ) /
                (hopC.length : ℚ))
            else 0
          proxyDetected := decide (0 < countProxyHops r + countServiceMeshHops r)
          requestsViaProxy := vp } := by
  unfold statsCompute
  rw [if_pos hl]

/-- The nonempty-window equation of statsCompute, with the record spelled
out. -/
lemma statsCompute_eq_full (latC : List ℚ) (hopC : List ℕ) (req err vp : ℕ)
    (uptime : ℚ) (r : Headers) (hl : ¬ latC.length = 0) :
    statsCompute latC hopC req err vp uptime r
      = { requests := req
          errors := err
          requestsPerSecond := round ((req : ℚ) / uptime)
          successRate :=
            round (if 0 < req then
              ((req : ℚ) - (err : ℚ)) / (req : ℚ) * 100
            else 100)
          avgLatency :=
            round ((latC.foldl (fun acc l => acc + l) 0) / (latC.length : ℚ))
          p50Latency := round ((percentile latC 0.50).getD 0)
          p95Latency := round ((percentile latC 0.95).getD 0)
          p99Latency := round ((percentile latC 0.99).getD 0)
          p999Latency := round ((percentile latC 0.999).getD 0)
          minLatency :=
            round (latC.foldl (fun m l => if l < m then l else m) (latC.headD 0))
          maxLatency :=
            round (latC.foldl (fun m l => if m < l then l else m) (latC.headD 0))
          currentHopCount := countProxyHops r + countServiceMeshHops r
          proxyHopCount := countProxyHops r
          serviceMeshHops := countServiceMeshHops r
          totalHopCount := countProxyHops r + countServiceMeshHops r
          avgProxyHops :=
            if 0 < hopC.length then
              round (((hopC.foldl (fun acc h => acc + h) 0 : ℕ) : ℚ) /
                (hopC.length : ℚ))
            else 0
          proxyDetected := decide (0 < countProxyHops r + countServiceMeshHops r)
          requestsViaProxy := vp } := by
  unfold statsCompute
  rw [if_neg hl]

/-- Every float field of the stats response is the image under round of its
raw value, in both branches. -/
lemma statsCompute_float_fields (latC : List ℚ) (hopC : List ℕ)
    (req err vp : ℕ) (uptime : ℚ) (r : Headers) :
    (statsCompute latC hopC req err vp uptime r).requestsPerSecond
        = round ((req : ℚ) / uptime) ∧
    (statsCompute latC hopC req err vp uptime r).successRate
        = round (if 0 < req then
            ((req : ℚ) - (err : ℚ)) / (req : ℚ) * 100 else 100) ∧
    (statsCompute latC hopC req err vp uptime r).avgProxyHops
        = round (if 0 < hopC.length then
            ((hopC.foldl (fun acc h => acc + h) 0 : ℕ) : ℚ) / (hopC.length : ℚ)
          else 0) ∧
    (statsCompute latC hopC req err vp uptime r).avgLatency
        = round (if latC.length = 0 then 0
            else (latC.foldl (fun acc l => acc + l) 0) / (latC.length : ℚ)) ∧
    (statsCompute latC hopC req err vp uptime r).p50Latency
        = round (if latC.length = 0 then 0 else (percentile latC 0.50).getD 0) ∧
    (statsCompute latC hopC req err vp uptime r).p95Latency
        = round (if latC.length = 0 then 0 else (percentile latC 0.95).getD 0) ∧
    (statsCompute latC hopC req err vp uptime r).p99Latency
        = round (if latC.length = 0 then 0 else (percentile latC 0.99).getD 0) ∧
    (statsCompute latC hopC req err vp uptime r).p999Latency
        = round (if latC.length = 0 then 0 else (percentile latC 0.999).getD 0) ∧
    (statsCompute latC hopC req err vp uptime r).minLatency
        = round (if latC.length = 0 then 0
            else latC.foldl (fun m l => if l < m then l else m) (latC.headD 0)) ∧
    (statsCompute latC hopC req err vp uptime r).maxLatency
        = round (if latC.length = 0 then 0
            else latC.foldl (fun m l => if m < l then l else m) (latC.headD 0)) := by
  by_cases hl : latC.length = 0
  · rw [statsCompute_eq_empty latC hopC req err vp uptime r hl]
    refine ⟨rfl, ?_, ?_, ?_, ?_, ?_, ?_, ?_, ?_, ?_⟩
    · by_cases hr : 0 < req
      · rw [if_pos hr, if_pos hr]
      · rw [if_neg hr, if_neg hr, round_hundred_eq]
    · by_cases hh : 0 < hopC.length
      · rw [if_pos hh, if_pos hh]
      · rw [if_neg hh, if_neg hh, round_zero_eq]
    all_goals rw [if_pos hl, round_zero_eq]
  · rw [statsCompute_eq_full latC hopC req err vp uptime r hl]
    refine ⟨rfl, rfl, ?_, ?_, ?_, ?_, ?_, ?_, ?_, ?_⟩
    · by_cases hh : 0 < hopC.length
      · rw [if_pos hh, if_pos hh]
      · rw [if_neg hh, if_neg hh, round_zero_eq]
    all_goals rw [if_neg hl]

/-- Every stats response along a run from an errors-free state reports
errors = 0 and a success rate of exactly 100. -/
lemma statsOutputs_err0_forall (ops : List Op) :
    ∀ s : ServerState, s.errors = 0 →
      (statsOutputs s ops).Forall fun st => st.errors = 0 ∧ st.successRate = 100 := by
  induction ops with
  | nil => intro s h; simp [statsOutputs]
  | cons op rest ih =>
    intro s h
    cases op with
    | request lat r =>
      rw [statsOutputs]
      refine ih _ ?_
      rw [show (handler s lat r).errors = s.errors from record_errors_eq s lat _]
      exact h
    | stats u r =>
      rw [statsOutputs]
      refine (List.forall_cons _ _ _).mpr ⟨?_, ih _ h⟩
      rw [h]
      obtain ⟨hsr, herr⟩ := statsCompute_err0 s.latencies s.proxyHops s.requests
        s.requestsViaProxy u r
      exact ⟨herr, hsr⟩

end StatsLemmas

section HopLemmas

/-- The comma loop computes one plus the number of commas. -/
lemma commaLoopCount_eq (s : String) :
    commaLoopCount s = 1 + s.data.count ',' := by
  unfold commaLoopCount
  have hgen : ∀ (l : List Char) (n : ℕ),
      l.foldl (fun count c => if c = ',' then count + 1 else count) n
        = n + l.count ',' := by
    intro l
    induction l with
    | nil => intro n; simp
    | cons c cs ih =>
      intro n
      rw [List.foldl_cons, ih, List.count_cons]
      by_cases hc : c = ','
      · simp only [hc, if_pos rfl, beq_self_eq_true, if_pos]
        omega
      · have hbeq : (c == ',') = false := beq_eq_false_iff_ne.mpr hc
        simp [hc, hbeq]
  exact hgen s.data 1

/-- The mesh counter counts the present non-empty markers of the fixed
five-element list. -/
lemma countServiceMeshHops_eq_countP (r : Headers) :
    countServiceMeshHops r
      = meshMarkerHeaders.countP (fun k => decide (r k ≠ "")) := by
  unfold countServiceMeshHops meshMarkerHeaders
  simp only [List.countP_cons, List.countP_nil]
  by_cases h1 : r "X-Request-Id" = "" <;>
    by_cases h2 : r "X-Envoy-External-Address" = "" <;>
    by_cases h3 : r "X-Envoy-Decorator-Operation" = "" <;>
    by_cases h4 : r "X-B3-TraceId" = "" <;>
    by_cases h5 : r "X-B3-SpanId" = "" <;>
    simp [h1, h2, h3, h4, h5]

end HopLemmas

section DerivedLemmas

/-- The store after a sequence of handler calls from the initial state:
componentwise the most recent 1000 of the arrival sequence. -/
lemma runRequests_init_spec (reqs : List (ℚ × Headers)) :
    (runRequests initState reqs).latencies
        = (reqs.map (fun pr => pr.1)).drop (reqs.length - 1000) ∧
    (runRequests initState reqs).proxyHops
        = (reqs.map (fun pr => countTotalHops pr.2)).drop (reqs.length - 1000) := by
  rw [runRequests_eq_runObs reqs initState]
  have h := runObs_init_spec (reqs.map fun pr => (pr.1, countTotalHops pr.2))
  simpa [List.map_map, Function.comp, List.length_map] using h

end DerivedLemmas

section Claims

/-- C1: for every sequence of handler appends the sample store's length never
exceeds 1000, and once more than 1000 observations have been recorded the
store holds exactly the most recent 1000 of them, in arrival order, on both
slices (strict FIFO eviction of the oldest entry on each append past
capacity). -/
theorem sample_window_bound_C1 :
    (∀ reqs : List (ℚ × Headers),
        (runRequests initState reqs).latencies.length ≤ 1000 ∧
        (runRequests initState reqs).proxyHops.length ≤ 1000) ∧
    (∀ reqs : List (ℚ × Headers), 1000 < reqs.length →
        (runRequests initState reqs).latencies
            = (reqs.map (fun pr => pr.1)).drop (reqs.length - 1000) ∧
        (runRequests initState reqs).proxyHops
            = (reqs.map (fun pr => countTotalHops pr.2)).drop (reqs.length - 1000) ∧
        ((reqs.map (fun pr => pr.1)).drop (reqs.length - 1000)).length = 1000) := by
  constructor
  · intro reqs
    obtain ⟨h1, h2⟩ := runRequests_init_spec reqs
    constructor
    · rw [h1, List.length_drop, List.length_map]
      omega
    · rw [h2, List.length_drop, List.length_map]
      omega
  · intro reqs hlen
    obtain ⟨h1, h2⟩ := runRequests_init_spec reqs
    refine ⟨h1, h2, ?_⟩
    rw [List.length_drop, List.length_map]
    omega

/-- Witness for C1 at a concrete run of 1001 identical requests. -/
theorem sample_window_bound_C1_witness :
    1000 < (List.replicate 1001 ((5 : ℚ), emptyHeaders)).length ∧
    ((runRequests initState (List.replicate 1001 ((5 : ℚ), emptyHeaders))).latencies
        = ((List.replicate 1001 ((5 : ℚ), emptyHeaders)).map (fun pr => pr.1)).drop
            ((List.replicate 1001 ((5 : ℚ), emptyHeaders)).length - 1000) ∧
      (runRequests initState (List.replicate 1001 ((5 : ℚ), emptyHeaders))).proxyHops
        = ((List.replicate 1001 ((5 : ℚ), emptyHeaders)).map
            (fun pr => countTotalHops pr.2)).drop
            ((List.replicate 1001 ((5 : ℚ), emptyHeaders)).length - 1000) ∧
      (((List.replicate 1001 ((5 : ℚ), emptyHeaders)).map (fun pr => pr.1)).drop
            ((List.replicate 1001 ((5 : ℚ), emptyHeaders)).length - 1000)).length
          = 1000) :=
  ⟨by rw [List.length_replicate]; omega,
    sample_window_bound_C1.2 _ (by rw [List.length_replicate]; omega)⟩

/-- C2: in every reachable state the latencies and proxy-hops sequences have
equal length and index-aligned correspondence (they are the componentwise
projections of the same most-recent-1000 observation sequence), and every
snapshot taken by the stats path yields two copies of equal length, for every
interleaving of appends and snapshots. -/
theorem parallel_arrays_C2 :
    (∀ ops : List Op,
        (runOps initState ops).latencies.length
          = (runOps initState ops).proxyHops.length) ∧
    (∀ ops : List Op,
        (snapshots initState ops).Forall fun pr => pr.1.length = pr.2.length) ∧
    (∀ ops : List Op,
        (runOps initState ops).latencies
            = ((obsOf ops).map (fun ob => ob.1)).drop ((obsOf ops).length - 1000) ∧
        (runOps initState ops).proxyHops
            = ((obsOf ops).map (fun ob => ob.2)).drop ((obsOf ops).length - 1000)) := by
  refine ⟨?_, ?_, ?_⟩
  · intro ops
    exact runOps_len_pair ops initState rfl
  · intro ops
    exact snapshots_len_forall ops initState rfl
  · intro ops
    rw [runOps_eq_runObs ops initState]
    exact runObs_init_spec (obsOf ops)

/-- C3: for nonempty data and p among the four used quantiles, the
nearest-rank index ceil(p*len)-1 lies in [0, len-1], percentile returns the
element of the ascending-sorted copy at that index (never panicking, so no
clamping is needed), and on a one-element list it returns that element. -/
theorem percentile_nearest_rank_C3 (data : List ℚ) (p : ℚ)
    (hne : data ≠ [])
    (hp : p = 0.50 ∨ p = 0.95 ∨ p = 0.99 ∨ p = 0.999) :
    0 ≤ ⌈p * (data.length : ℚ)⌉ - 1 ∧
    ⌈p * (data.length : ℚ)⌉ - 1 ≤ (data.length : ℤ) - 1 ∧
    percentile data p
      = (List.insertionSort (· ≤ ·) data)[(⌈p * (data.length : ℚ)⌉ - 1).toNat]? ∧
    (percentile data p).isSome = true ∧
    (∀ a : ℚ, data = [a] → percentile data p = some a) := by
  have hp0 : 0 < p := by
    rcases hp with h | h | h | h <;> rw [h] <;> norm_num
  have hp1 : p ≤ 1 := by
    rcases hp with h | h | h | h <;> rw [h] <;> norm_num
  obtain ⟨h1, h2, h3, h4⟩ := percentile_spec data p hne hp0 hp1
  refine ⟨h1, by omega, h3, h4, ?_⟩
  intro a ha
  rw [ha]
  exact percentile_singleton a p hp0 hp1

/-- Witness for C3 at data [3, 1, 2] and p = 0.95. -/
theorem percentile_nearest_rank_C3_witness :
    (([3, 1, 2] : List ℚ) ≠ [] ∧
      ((0.95 : ℚ) = 0.50 ∨ (0.95 : ℚ) = 0.95 ∨ (0.95 : ℚ) = 0.99 ∨
        (0.95 : ℚ) = 0.999)) ∧
    (0 ≤ ⌈(0.95 : ℚ) * ((([3, 1, 2] : List ℚ)).length : ℚ)⌉ - 1 ∧
      ⌈(0.95 : ℚ) * ((([3, 1, 2] : List ℚ)).length : ℚ)⌉ - 1
          ≤ ((([3, 1, 2] : List ℚ)).length : ℤ) - 1 ∧
      percentile [3, 1, 2] 0.95
          = (List.insertionSort (· ≤ ·) ([3, 1, 2] : List ℚ))[
              (⌈(0.95 : ℚ) * ((([3, 1, 2] : List ℚ)).length : ℚ)⌉ - 1).toNat]? ∧
      (percentile ([3, 1, 2] : List ℚ) 0.95).isSome = true ∧
      (∀ a : ℚ, ([3, 1, 2] : List ℚ) = [a] →
          percentile [3, 1, 2] 0.95 = some a)) :=
  ⟨⟨by simp, Or.inr (Or.inl rfl)⟩,
    percentile_nearest_rank_C3 [3, 1, 2] 0.95 (by simp) (Or.inr (Or.inl rfl))⟩

/-- C4: round is exactly round-half-away-from-zero of value*100 divided by
100, and every floating field of the stats output (the stats-computation
fields, the host memory and disk readings, and the runtime memory fields)
is the image of its raw value under round. -/
theorem rounding_two_decimals_C4 :
    (∀ x : ℚ, round x = halfAwayFromZeroSpec x) ∧
    (∀ (latC : List ℚ) (hopC : List ℕ) (req err vp : ℕ) (uptime : ℚ)
        (r : Headers),
      (statsCompute latC hopC req err vp uptime r).requestsPerSecond
          = round ((req : ℚ) / uptime) ∧
      (statsCompute latC hopC req err vp uptime r).successRate
          = round (if 0 < req then
              ((req : ℚ) - (err : ℚ)) / (req : ℚ) * 100 else 100) ∧
      (statsCompute latC hopC req err vp uptime r).avgProxyHops
          = round (if 0 < hopC.length then
              ((hopC.foldl (fun acc h => acc + h) 0 : ℕ) : ℚ) / (hopC.length : ℚ)
            else 0) ∧
      (statsCompute latC hopC req err vp uptime r).avgLatency
          = round (if latC.length = 0 then 0
              else (latC.foldl (fun acc l => acc + l) 0) / (latC.length : ℚ)) ∧
      (statsCompute latC hopC req err vp uptime r).p50Latency
          = round (if latC.length = 0 then 0 else (percentile latC 0.50).getD 0) ∧
      (statsCompute latC hopC req err vp uptime r).p95Latency
          = round (if latC.length = 0 then 0 else (percentile latC 0.95).getD 0) ∧
      (statsCompute latC hopC req err vp uptime r).p99Latency
          = round (if latC.length = 0 then 0 else (percentile latC 0.99).getD 0) ∧
      (statsCompute latC hopC req err vp uptime r).p999Latency
          = round (if latC.length = 0 then 0 else (percentile latC 0.999).getD 0) ∧
      (statsCompute latC hopC req err vp uptime r).minLatency
          = round (if latC.length = 0 then 0
              else latC.foldl (fun m l => if l < m then l else m) (latC.headD 0)) ∧
      (statsCompute latC hopC req err vp uptime r).maxLatency
          = round (if latC.length = 0 then 0
              else latC.foldl (fun m l => if m < l then l else m) (latC.headD 0))) ∧
    (∀ kb : Option ℚ, ∃ y : ℚ, getTotalMemoryMB kb = round y) ∧
    (∀ kb : Option ℚ, ∃ y : ℚ, getAvailableMemoryMB kb = round y) ∧
    (∀ (ok : Bool) (t a : ℕ), ∃ y1 y2 y3 : ℚ,
        getDiskStats ok t a = (round y1, round y2, round y3)) ∧
    (∀ alloc sys totalAlloc pauseNs : ℕ, ∃ y1 y2 y3 y4 : ℚ,
        memStatsFields alloc sys totalAlloc pauseNs
          = (round y1, round y2, round y3, round y4)) := by
  refine ⟨round_eq_spec, statsCompute_float_fields, ?_, ?_, ?_, ?_⟩
  · intro kb
    cases kb with
    | none => exact ⟨0, round_zero_eq.symm⟩
    | some kb => exact ⟨kb / 1024, rfl⟩
  · intro kb
    cases kb with
    | none => exact ⟨0, round_zero_eq.symm⟩
    | some kb => exact ⟨kb / 1024, rfl⟩
  · intro ok t a
    cases ok with
    | false =>
      exact ⟨0, 0, 0, by simp [getDiskStats, round_zero_eq]⟩
    | true =>
      by_cases hpos : 0 < round ((t : ℚ) / 1024 / 1024 / 1024)
      · refine ⟨(t : ℚ) / 1024 / 1024 / 1024, (a : ℚ) / 1024 / 1024 / 1024,
          ((t : ℚ) - (a : ℚ)) / (t : ℚ) * 100, ?_⟩
        simp only [getDiskStats, if_pos hpos]
        rfl
      · refine ⟨(t : ℚ) / 1024 / 1024 / 1024, (a : ℚ) / 1024 / 1024 / 1024,
          0, ?_⟩
        simp only [getDiskStats, if_neg hpos, round_zero_eq]
        rfl
  · intro alloc sys totalAlloc pauseNs
    exact ⟨(alloc : ℚ) / 1024 / 1024, (sys : ℚ) / 1024 / 1024,
      (totalAlloc : ℚ) / 1024 / 1024, (pauseNs : ℚ) / 1000000, rfl⟩

/-- C5: whenever the snapshot of recorded observations is empty, the stats
output has success rate exactly 100, requests-per-second computed from the
request counter and uptime only, all latency fields zero, and the whole
output coincides with the percentile-free empty-window computation. -/
theorem empty_window_stats_C5 (ops : List Op) (uptime : ℚ) (r : Headers)
    (hempty : (runOps initState ops).latencies = []) :
    (statsCompute (runOps initState ops).latencies (runOps initState ops).proxyHops
        (runOps initState ops).requests (runOps initState ops).errors
        (runOps initState ops).requestsViaProxy uptime r).successRate = 100 ∧
    (statsCompute (runOps initState ops).latencies (runOps initState ops).proxyHops
        (runOps initState ops).requests (runOps initState ops).errors
        (runOps initState ops).requestsViaProxy uptime r).requestsPerSecond
      = round (((runOps initState ops).requests : ℚ) / uptime) ∧
    (statsCompute (runOps initState ops).latencies (runOps initState ops).proxyHops
        (runOps initState ops).requests (runOps initState ops).errors
        (runOps initState ops).requestsViaProxy uptime r).avgLatency = 0 ∧
    (statsCompute (runOps initState ops).latencies (runOps initState ops).proxyHops
        (runOps initState ops).requests (runOps initState ops).errors
        (runOps initState ops).requestsViaProxy uptime r).p50Latency = 0 ∧
    (statsCompute (runOps initState ops).latencies (runOps initState ops).proxyHops
        (runOps initState ops).requests (runOps initState ops).errors
        (runOps initState ops).requestsViaProxy uptime r).p95Latency = 0 ∧
    (statsCompute (runOps initState ops).latencies (runOps initState ops).proxyHops
        (runOps initState ops).requests (runOps initState ops).errors
        (runOps initState ops).requestsViaProxy uptime r).p99Latency = 0 ∧
    (statsCompute (runOps initState ops).latencies (runOps initState ops).proxyHops
        (runOps initState ops).requests (runOps initState ops).errors
        (runOps initState ops).requestsViaProxy uptime r).p999Latency = 0 ∧
    (statsCompute (runOps initState ops).latencies (runOps initState ops).proxyHops
        (runOps initState ops).requests (runOps initState ops).errors
        (runOps initState ops).requestsViaProxy uptime r).minLatency = 0 ∧
    (statsCompute (runOps initState ops).latencies (runOps initState ops).proxyHops
        (runOps initState ops).requests (runOps initState ops).errors
        (runOps initState ops).requestsViaProxy uptime r).maxLatency = 0 ∧
    statsCompute (runOps initState ops).latencies (runOps initState ops).proxyHops
        (runOps initState ops).requests (runOps initState ops).errors
        (runOps initState ops).requestsViaProxy uptime r
      = emptyWindowStats (runOps initState ops).proxyHops
          (runOps initState ops).requests (runOps initState ops).errors
          (runOps initState ops).requestsViaProxy uptime r := by
  have herr0 : (runOps initState ops).errors = 0 := runOps_errors_eq ops initState
  rw [hempty, herr0]
  obtain ⟨hsr, _⟩ := statsCompute_err0 [] (runOps initState ops).proxyHops
    (runOps initState ops).requests (runOps initState ops).requestsViaProxy
    uptime r
  refine ⟨hsr, ?_⟩
  rw [statsCompute_eq_empty [] (runOps initState ops).proxyHops
    (runOps initState ops).requests 0 (runOps initState ops).requestsViaProxy
    uptime r rfl]
  exact ⟨rfl, rfl, rfl, rfl, rfl, rfl, rfl, rfl, rfl⟩

/-- Witness for C5 at the empty operation sequence. -/
theorem empty_window_stats_C5_witness :
    (runOps initState []).latencies = [] ∧
    ((statsCompute (runOps initState []).latencies (runOps initState []).proxyHops
        (runOps initState []).requests (runOps initState []).errors
        (runOps initState []).requestsViaProxy 7 emptyHeaders).successRate = 100 ∧
     (statsCompute (runOps initState []).latencies (runOps initState []).proxyHops
        (runOps initState []).requests (runOps initState []).errors
        (runOps initState []).requestsViaProxy 7 emptyHeaders).requestsPerSecond
       = round (((runOps initState []).requests : ℚ) / 7) ∧
     (statsCompute (runOps initState []).latencies (runOps initState []).proxyHops
        (runOps initState []).requests (runOps initState []).errors
        (runOps initState []).requestsViaProxy 7 emptyHeaders).avgLatency = 0 ∧
     (statsCompute (runOps initState []).latencies (runOps initState []).proxyHops
        (runOps initState []).requests (runOps initState []).errors
        (runOps initState []).requestsViaProxy 7 emptyHeaders).p50Latency = 0 ∧
     (statsCompute (runOps initState []).latencies (runOps initState []).proxyHops
        (runOps initState []).requests (runOps initState []).errors
        (runOps initState []).requestsViaProxy 7 emptyHeaders).p95Latency = 0 ∧
     (statsCompute (runOps initState []).latencies (runOps initState []).proxyHops
        (runOps initState []).requests (runOps initState []).errors
        (runOps initState []).requestsViaProxy 7 emptyHeaders).p99Latency = 0 ∧
     (statsCompute (runOps initState []).latencies (runOps initState []).proxyHops
        (runOps initState []).requests (runOps initState []).errors
        (runOps initState []).requestsViaProxy 7 emptyHeaders).p999Latency = 0 ∧
     (statsCompute (runOps initState []).latencies (runOps initState []).proxyHops
        (runOps initState []).requests (runOps initState []).errors
        (runOps initState []).requestsViaProxy 7 emptyHeaders).minLatency = 0 ∧
     (statsCompute (runOps initState []).latencies (runOps initState []).proxyHops
        (runOps initState []).requests (runOps initState []).errors
        (runOps initState []).requestsViaProxy 7 emptyHeaders).maxLatency = 0 ∧
     statsCompute (runOps initState []).latencies (runOps initState []).proxyHops
        (runOps initState []).requests (runOps initState []).errors
        (runOps initState []).requestsViaProxy 7 emptyHeaders
       = emptyWindowStats (runOps initState []).proxyHops
           (runOps initState []).requests (runOps initState []).errors
           (runOps initState []).requestsViaProxy 7 emptyHeaders) :=
  ⟨rfl, empty_window_stats_C5 [] 7 emptyHeaders rfl⟩

/-- C6: the traditional-proxy hop count is the sum of one plus the comma
count for each of X-Forwarded-For and Via when present and non-empty; the
spec's two examples evaluate to 3 and 4. -/
theorem proxy_hops_C6 :
    (∀ r : Headers, countProxyHops r
        = (if r "X-Forwarded-For" ≠ "" then
            1 + (r "X-Forwarded-For").data.count ',' else 0)
          + (if r "Via" ≠ "" then 1 + (r "Via").data.count ',' else 0)) ∧
    countProxyHops xffHeaders = 3 ∧
    countProxyHops xffViaHeaders = 4 := by
  refine ⟨?_, by decide, by decide⟩
  intro r
  unfold countProxyHops
  rw [commaLoopCount_eq (r "X-Forwarded-For"), commaLoopCount_eq (r "Via")]

/-- C7: the mesh hop count is the number of present non-empty marker headers
among the fixed five, total hops is traditional plus mesh, proxy_detected is
true exactly when total hops is positive, and the spec's example evaluates to
mesh 2, traditional 0, total 2, detected. -/
theorem mesh_hops_C7 :
    (∀ r : Headers, countServiceMeshHops r
        = meshMarkerHeaders.countP (fun k => decide (r k ≠ ""))) ∧
    (∀ r : Headers, countTotalHops r = countProxyHops r + countServiceMeshHops r) ∧
    (∀ r : Headers, proxyDetected r = true ↔ 0 < countTotalHops r) ∧
    countServiceMeshHops b3Headers = 2 ∧
    countProxyHops b3Headers = 0 ∧
    countTotalHops b3Headers = 2 ∧
    proxyDetected b3Headers = true := by
  refine ⟨countServiceMeshHops_eq_countP, fun r => rfl, ?_, by decide, by decide,
    by decide, by decide⟩
  intro r
  unfold proxyDetected
  exact decide_eq_true_iff

/-- C8: a sidecar-cache call within the 30-second cooldown returns the cached
boolean with no probe and an unchanged cell; a call after the cooldown
performs exactly one probe, stores its outcome with the new timestamp, and
returns it; two calls within the same cooldown window return the identical
cached result. -/
theorem sidecar_cache_C8 (c : IstioCache) (now : ℚ) (probe : Bool) :
    (now - c.istioLastChecked < 30 →
        istioSidecarPresent c now probe = (c.istioPresentCached, c, 0)) ∧
    (¬ now - c.istioLastChecked < 30 →
        istioSidecarPresent c now probe
          = (probe, { istioPresentCached := probe, istioLastChecked := now }, 1)) ∧
    (∀ (now2 : ℚ) (probe2 : Bool),
        now - c.istioLastChecked < 30 → now2 - c.istioLastChecked < 30 →
        (istioSidecarPresent c now probe).1
          = (istioSidecarPresent c now2 probe2).1) := by
  refine ⟨?_, ?_, ?_⟩
  · intro h
    simp only [istioSidecarPresent]
    rw [if_pos h]
  · intro h
    simp only [istioSidecarPresent]
    rw [if_neg h]
  · intro now2 probe2 h1 h2
    simp only [istioSidecarPresent]
    rw [if_pos h1, if_pos h2]

/-- Witness for C8 at a cache last checked at time 0, queried at times 5
and 7. -/
theorem sidecar_cache_C8_witness :
    ((5 : ℚ) - (IstioCache.mk false 0).istioLastChecked < 30 ∧
      (7 : ℚ) - (IstioCache.mk false 0).istioLastChecked < 30 ∧
      (istioSidecarPresent ⟨false, 0⟩ 5 true).1
        = (istioSidecarPresent ⟨false, 0⟩ 7 false).1) ∧
    istioSidecarPresent ⟨false, 0⟩ 5 true
      = ((IstioCache.mk false 0).istioPresentCached, ⟨false, 0⟩, 0) :=
  ⟨⟨by norm_num, by norm_num,
      (sidecar_cache_C8 ⟨false, 0⟩ 5 true).2.2 7 false (by norm_num) (by norm_num)⟩,
    (sidecar_cache_C8 ⟨false, 0⟩ 5 true).1 (by norm_num)⟩

/-- C9: all three counters start at zero; requests_via_proxy never exceeds
requests in any reachable state; and no operation ever decreases any of the
three counters. -/
theorem counters_monotone_C9 :
    initState.requests = 0 ∧ initState.errors = 0 ∧
    initState.requestsViaProxy = 0 ∧
    (∀ ops : List Op,
        (runOps initState ops).requestsViaProxy
          ≤ (runOps initState ops).requests) ∧
    (∀ (s : ServerState) (op : Op),
        s.requests ≤ (applyOp s op).requests ∧
        s.errors ≤ (applyOp s op).errors ∧
        s.requestsViaProxy ≤ (applyOp s op).requestsViaProxy) := by
  refine ⟨rfl, rfl, rfl, ?_, ?_⟩
  · intro ops
    exact runOps_via_le ops initState (le_refl 0)
  · intro s op
    exact ⟨applyOp_requests_mono s op, le_of_eq (applyOp_errors_eq s op).symm,
      applyOp_via_mono s op⟩

/-- C10: no operation changes the errors counter, so it is zero in every
reachable state, and every stats response along every run reports errors = 0
and a success rate of exactly 100, in both the empty-window and the
nonempty-window branch. -/
theorem errors_never_incremented_C10 :
    (∀ (s : ServerState) (op : Op), (applyOp s op).errors = s.errors) ∧
    (∀ ops : List Op, (runOps initState ops).errors = 0) ∧
    (∀ ops : List Op, (statsOutputs initState ops).Forall
        fun st => st.errors = 0 ∧ st.successRate = 100) := by
  refine ⟨applyOp_errors_eq, ?_, ?_⟩
  · intro ops
    rw [runOps_errors_eq]
    rfl
  · intro ops
    exact statsOutputs_err0_forall ops initState rfl

end Claims

end PodMeter
